import Mathlib

set_option linter.unusedVariables false

/-!
Shallow embedding of `wrapper.go` from the sls serverless-deployment
wrapper, with proofs about its behaviour. External effects (subprocesses,
the filesystem, the clock, the YAML library, PATH lookup) are supplied by
oracles collected in a `World`; the embedded functions mirror the Go
control flow statement by statement. An `ExecState` instruments each run
with the sequence of subprocess starts and sleeps it performs.
-/

namespace Sls

/-- Go errors are modelled by their message text, i.e. by `err.Error()`. -/
abbrev GoError := String

/-- Fuel-indexed core of Go `strings.Replace(s, old, new, -1)` for a
non-empty pattern `old`: scan `s` left to right and replace each leftmost
non-overlapping occurrence of `old` by `new`. The fuel only bounds the
recursion depth; `replaceAll` supplies `fuel = s.length`, which always
suffices because every step consumes at least one character. (Go's
`strings.Replace` with an empty `old` inserts `new` at every position;
`wrapper.go` only ever passes the two fixed non-empty placeholder
patterns, and for `old = []` this embedding returns `s` unchanged.) -/
def replaceAllF (old new : List Char) : Nat → List Char → List Char
  | 0, s => s
  | fuel + 1, s =>
    if old = [] then s
    else
      match s with
      | [] => []
      | c :: rest =>
        if old.isPrefixOf (c :: rest) then
          new ++ replaceAllF old new fuel ((c :: rest).drop old.length)
        else
          c :: replaceAllF old new fuel rest

/-- Go `strings.Replace(s, old, new, -1)` on character lists. -/
def replaceAll (old new s : List Char) : List Char :=
  replaceAllF old new s.length s

/-- Go `strings.Replace(s, old, new, -1)` on strings. -/
def stringsReplace (s old new : String) : String :=
  ⟨replaceAll old.data new.data s.data⟩

/-- Whether `pat` occurs as a contiguous run inside a character list
(the occurrence test used to state the substitution claims). -/
def containsSeq (pat : List Char) : List Char → Bool
  | [] => pat.isEmpty
  | c :: rest => pat.isPrefixOf (c :: rest) || containsSeq pat rest

/-- Go `strings.HasPrefix(s, p)`: whether `p` is a leading substring
of `s`, via the character lists. -/
def hasPrefixStr (p s : String) : Bool :=
  p.data.isPrefixOf s.data

/-- Go `strings.TrimSpace`: drop leading and trailing whitespace.
(Go trims Unicode white space; every claim treats the trimming
operation opaquely, so the exact character class is irrelevant.) -/
def trimSpace (s : String) : String :=
  ⟨((s.data.dropWhile Char.isWhitespace).reverse.dropWhile Char.isWhitespace).reverse⟩

/-- Go `strconv.FormatInt(i, 10)`: the decimal rendering of an integer,
an optional leading minus sign followed by decimal digits. -/
def formatInt (i : Int) : String := Int.repr i

/-- The run-suffix placeholder recognised in function names,
literally the thirteen characters dollar, open brace, `opt:suffix`,
close brace. -/
def placeholder : String := "$\x7bopt:suffix\x7d"

/-- The hyphen-prefixed placeholder pattern stripped by the `StackId`
accessor (wrapper.go line 96): a hyphen followed by `placeholder`. -/
def dashPlaceholder : String := "-$\x7bopt:suffix\x7d"

/-- The ten decimal digit characters. -/
def digits10 : List Char := ['0', '1', '2', '3', '4', '5', '6', '7', '8', '9']

/-! ## Service descriptor data model (wrapper.go lines 24-52) -/

/-- One deployable unit (wrapper.go 24-30); field names as in the source. -/
structure FunctionMeta where
  Name : String
  Handler : String
  Description : String
  Runtime : String
  MemorySize : String
deriving Repr, DecidableEq

/-- wrapper.go 32: `map[string]FunctionMeta`, modelled as an association
list fixing one iteration order of the Go map (key order is irrelevant
to every claim). -/
abbrev Functions := List (String × FunctionMeta)

/-- The anonymous provider struct nested in ServiceStack (wrapper.go 36-40). -/
structure SlsProvider where
  Name : String
  Project : String
  Stage : String
deriving Repr, DecidableEq

/-- wrapper.go 34-43. -/
structure ServiceStack where
  StackId : String
  Provider : SlsProvider
  Functions : Functions
deriving Repr, DecidableEq

/-- wrapper.go 45-52. The Go field `stack` is a pointer exclusively owned
by the wrapper, so it is embedded by value. -/
structure Wrapper where
  provider : String
  slsPath : String
  yamlDirPath : String
  stack : ServiceStack
  suffix : String
  Opts : List (String × String)
deriving Repr, DecidableEq

/-! ## External-world oracles and run instrumentation -/

/-- Behaviour of one attempted subprocess, as observed by `execCmd`:
whether `cmd.Start()` fails, whether either `io.Copy` goroutine reports
an error, the buffered standard output, and the `cmd.Wait()` error. -/
structure ProcResult where
  startErr : Option GoError
  stdoutCopyErr : Option GoError
  stderrCopyErr : Option GoError
  stdoutData : String
  exitErr : Option GoError
deriving Repr, DecidableEq

/-- The configuration of one started `os/exec` command: `exec.Command`
sets the program and arguments, `execCmd` sets the directory. The
`env` field mirrors `exec.Cmd.Env`, where `none` means the child
inherits the parent environment; `wrapper.go` never assigns `cmd.Env`,
so every started command carries `env := none`. -/
structure GoCmd where
  prog : String
  args : List String
  dir : String
  env : Option (List String)
deriving Repr, DecidableEq

/-- Observable actions of a run: a subprocess start attempt with its full
configuration, or a `time.Sleep` of the given number of seconds. -/
inductive Event where
  | exec (c : GoCmd)
  | sleepSeconds (n : Nat)
deriving Repr, DecidableEq

/-- Result of `os.Stat` as classified by wrapper.go 245-251: success,
an error for which `os.IsNotExist` holds, or any other error. -/
inductive StatRes where
  | found
  | notExist
  | failed (e : GoError)
deriving Repr, DecidableEq

/-- The external collaborators of the wrapper: the filesystem stat and
read operations, PATH lookup, the YAML deserializer, and the behaviour
of the n-th subprocess started during the run. -/
structure World where
  stat : String → StatRes
  proc : Nat → ProcResult
  lookPath : String → Except GoError String
  readFile : String → Except GoError String
  unmarshal : String → Except GoError ServiceStack

/-- Instrumentation threaded through a run: how many subprocesses have
been started so far (indexing into `World.proc`) and the trace of
observable events, in order. -/
structure ExecState where
  nextProc : Nat
  trace : List Event
deriving Repr, DecidableEq

/-- wrapper.go 20. -/
def YamlName : String := "serverless.yml"

/-- wrapper.go 21. -/
def slsRetries : Nat := 10

/-- Go `path.Join` / `filepath.Join` for the two-segment joins performed
in wrapper.go (a base directory with a fixed platform or file name). Go
additionally cleans the joined path; no claim depends on cleaning. -/
def pathJoin (a b : String) : String :=
  if a = "" then b else if b = "" then a else a ++ "/" ++ b

/-! ## Embedded operations -/

/-- wrapper.go 68-70. -/
def getSLSPath (world : World) : Except GoError String :=
  world.lookPath "sls"

/-- wrapper.go 72-89: read the service file, deserialize it, and check
the declared provider against the expected one. -/
def ParseConfig (world : World) (provider yamlDirPath : String) :
    Except GoError ServiceStack :=
  match world.readFile (pathJoin yamlDirPath YamlName) with
  | .error err => .error err
  | .ok yamlData =>
    match world.unmarshal yamlData with
    | .error err => .error err
    | .ok slsData =>
      if provider ≠ slsData.Provider.Name then
        .error ("expected provider " ++ provider ++ ", found provider: " ++
          slsData.Provider.Name)
      else
        .ok slsData

/-- wrapper.go 54-66: construction. The Go struct literal omits `suffix`,
so it starts as the zero value `""`; `Opts` starts as an empty map. -/
def New (world : World) (provider yamlDirPath : String) : Except GoError Wrapper :=
  match getSLSPath world with
  | .error _ => .error "serverless framework is not installed"
  | .ok path =>
    match ParseConfig world provider yamlDirPath with
    | .error err => .error err
    | .ok stack =>
      .ok { provider := provider, slsPath := path, yamlDirPath := yamlDirPath,
            stack := stack, suffix := "", Opts := [] }

/-- wrapper.go 91-93. -/
def Wrapper.ListFunctionsFromYaml (w : Wrapper) : Functions :=
  w.stack.Functions

/-- wrapper.go 95-97: `strings.Replace(w.stack.StackId, "-placeholder", "", -1)`
with the hyphen-prefixed placeholder pattern. -/
def Wrapper.StackId (w : Wrapper) : String :=
  stringsReplace w.stack.StackId dashPlaceholder ""

/-- wrapper.go 99-101. -/
def Wrapper.Project (w : Wrapper) : String :=
  w.stack.Provider.Project

/-- wrapper.go 103-105. -/
def Wrapper.Stage (w : Wrapper) : String :=
  w.stack.Provider.Stage

/-- wrapper.go 107-139: run one external command. The `env` parameter
mirrors the Go signature; the Go body never assigns `cmd.Env`, so the
started command records `env := none` whatever was passed. On a start
failure the error is returned with no output; after the wait, a copy
error on either stream yields the fixed capture-failure error, taking
precedence over the process's own exit error; otherwise the trimmed
buffered standard output is returned with the exit error. -/
def execCmd (world : World) (env : List String) (dir command : String)
    (cmdArgs : List String) (st : ExecState) :
    (String × Option GoError) × ExecState :=
  let p := world.proc st.nextProc
  let st' : ExecState :=
    { nextProc := st.nextProc + 1,
      trace := st.trace ++
        [Event.exec { prog := command, args := cmdArgs, dir := dir, env := none }] }
  match p.startErr with
  | some err => (("", some err), st')
  | none =>
    if p.stdoutCopyErr.isSome || p.stderrCopyErr.isSome then
      (("", some "failed to capture stdout or stderr"), st')
    else
      ((trimSpace p.stdoutData, p.exitErr), st')

/-- The value component of `execCmd`, as a function of the process
behaviour alone (the state component is the deterministic bookkeeping). -/
def execCmdOutcome (p : ProcResult) : String × Option GoError :=
  match p.startErr with
  | some err => ("", some err)
  | none =>
    if p.stdoutCopyErr.isSome || p.stderrCopyErr.isSome then
      ("", some "failed to capture stdout or stderr")
    else
      (trimSpace p.stdoutData, p.exitErr)

/-- wrapper.go 145-148: the flags contributed by `w.Opts`
(`--name value` for each entry, in iteration order). -/
def optFlags : List (String × String) → List String
  | [] => []
  | p :: rest => ("--" ++ p.1) :: p.2 :: optFlags rest

/-- wrapper.go 152-156: the retry loop. While the last error is non-nil
and retries remain, rerun the identical command, sleep five seconds,
and decrement the budget; finally return the last response and error. -/
def execSlsCmdLoop (world : World) (funcDir : String) (slsCmd : List String) :
    String → Option GoError → Nat → ExecState → (String × Option GoError) × ExecState
  | resp, none, _, st => ((resp, none), st)
  | resp, some err, 0, st => ((resp, some err), st)
  | _, some _, retries + 1, st =>
    let r := execCmd world [] funcDir "sls" slsCmd st
    let st' := { r.2 with trace := r.2.trace ++ [Event.sleepSeconds 5] }
    execSlsCmdLoop world funcDir slsCmd r.1.1 r.1.2 retries st'

/-- wrapper.go 141-158: extend the argument list with `--suffix`, the
current suffix, and the option flags, run the command once, then retry
on error with a budget of `slsRetries`. -/
def execSlsCmd (world : World) (w : Wrapper) (funcDir : String)
    (slsCmd : List String) (st : ExecState) :
    (String × Option GoError) × ExecState :=
  let slsCmd := slsCmd ++ ["--suffix", w.suffix] ++ optFlags w.Opts
  let r := execCmd world [] funcDir "sls" slsCmd st
  execSlsCmdLoop world funcDir slsCmd r.1.1 r.1.2 slsRetries r.2

/-- Three-valued result of `platformPath` (wrapper.go 243-253). -/
inductive PlatformPathRes where
  | present (p : String)
  | absent
  | failed (e : GoError)
deriving Repr, DecidableEq

/-- wrapper.go 243-253: locate a runtime's source subdirectory; absence
(`os.IsNotExist`) is not an error. -/
def platformPath (world : World) (w : Wrapper) (platform : String) :
    PlatformPathRes :=
  let srcPath := pathJoin w.yamlDirPath platform
  match world.stat srcPath with
  | .found => .present srcPath
  | .notExist => .absent
  | .failed e => .failed e

/-- wrapper.go 191-204: the Java build step. A missing directory is a
no-op; an `mvn package` error whose text starts with `WARNING` is
swallowed; every other error propagates. -/
def buildJava (world : World) (w : Wrapper) (version : String) (st : ExecState) :
    Option GoError × ExecState :=
  match platformPath world w version with
  | .failed err => (some err, st)
  | .absent => (none, st)
  | .present javaPath =>
    let r := execCmd world [] javaPath "mvn" ["package"] st
    match r.1.2 with
    | some err => if hasPrefixStr "WARNING" err then (none, r.2) else (some err, r.2)
    | none => (none, r.2)

/-- wrapper.go 217-241: the C# build step; restore, then package. -/
def buildCsharp (world : World) (w : Wrapper) (st : ExecState) :
    Option GoError × ExecState :=
  match platformPath world w "csharp" with
  | .failed err => (some err, st)
  | .absent => (none, st)
  | .present csharpPath =>
    let r := execCmd world [] csharpPath "dotnet" ["restore"] st
    match r.1.2 with
    | some err => (some err, r.2)
    | none =>
      let r2 := execCmd world [] csharpPath "dotnet"
        ["lambda", "package", "--configuration", "release", "--framework",
         "netcoreapp2.1", "--output-package", "./deploy.zip"] r.2
      (r2.1.2, r2.2)

/-- wrapper.go 255-266: the Go build step. The source passes
`GOOS=linux` and `GO111MODULE=on` to `execCmd`, which drops them
(`cmd.Env` is never assigned). -/
def buildGolang (world : World) (w : Wrapper) (st : ExecState) :
    Option GoError × ExecState :=
  match platformPath world w "golang" with
  | .failed err => (some err, st)
  | .absent => (none, st)
  | .present golangPath =>
    let env := ["GOOS=linux", "GO111MODULE=on"]
    let r := execCmd world env golangPath "go"
      ["build", "-ldflags", "-s", "-ldflags", "-w", "-o", "bin/hello", "main.go"] st
    (r.1.2, r.2)

/-- wrapper.go 162-169: the mutation at the start of `DeployStack` —
generate the suffix from the clock and rewrite every function name by
substituting the placeholder. -/
def deploySuffixed (w : Wrapper) (nowUnixNano : Int) : Wrapper :=
  let suffix := formatInt nowUnixNano
  { w with
    suffix := suffix,
    stack := { w.stack with
      Functions := w.stack.Functions.map fun kv =>
        (kv.1, { kv.2 with Name := stringsReplace kv.2.Name placeholder suffix }) } }

/-- wrapper.go 160-189: `DeployStack`. The clock reading
`time.Now().UnixNano()` is passed as `nowUnixNano`. Build steps run in
the fixed order java8, java11, csharp, golang; the first error aborts;
only then is the deploy invocation issued through the retrying path. -/
def DeployStack (world : World) (w : Wrapper) (nowUnixNano : Int) (st : ExecState) :
    Option GoError × Wrapper × ExecState :=
  let w := deploySuffixed w nowUnixNano
  match buildJava world w "java8" st with
  | (some err, st) => (some err, w, st)
  | (none, st) =>
    match buildJava world w "java11" st with
    | (some err, st) => (some err, w, st)
    | (none, st) =>
      match buildCsharp world w st with
      | (some err, st) => (some err, w, st)
      | (none, st) =>
        match buildGolang world w st with
        | (some err, st) => (some err, w, st)
        | (none, st) =>
          let r := execSlsCmd world w w.yamlDirPath
            ["deploy", "--no-aws-s3-accelerate"] st
          (r.1.2, w, r.2)

/-- wrapper.go 206-209. -/
def RemoveStack (world : World) (w : Wrapper) (st : ExecState) :
    Option GoError × ExecState :=
  let r := execSlsCmd world w w.yamlDirPath ["remove"] st
  (r.1.2, r.2)

/-- wrapper.go 211-215. -/
def ListFunction (world : World) (w : Wrapper) (st : ExecState) :
    Option GoError × ExecState :=
  let r := execSlsCmd world w w.yamlDirPath ["deploy", "list", "functions"] st
  (r.1.2, r.2)

/-! ## Abbreviations used by the statements -/

/-- The event of one sls tool invocation issued by `execSlsCmd` for the
given wrapper, directory and subcommand. -/
def slsEvent (w : Wrapper) (funcDir : String) (slsCmd : List String) : Event :=
  .exec { prog := "sls", args := slsCmd ++ ["--suffix", w.suffix] ++ optFlags w.Opts,
          dir := funcDir, env := none }

/-- The events appended by `r` iterations of the retry loop: each
iteration starts the command and then sleeps five seconds. -/
def retryTrace (ev : Event) : Nat → List Event
  | 0 => []
  | r + 1 => ev :: Event.sleepSeconds 5 :: retryTrace ev r

/-- The number of subprocess start attempts recorded in a trace. -/
def countExecEvents (t : List Event) : Nat :=
  (t.filter fun ev => match ev with | .exec _ => true | _ => false).length

/-- The java8 build step as run first by `DeployStack` (after the
suffix rewrite). -/
def deployB1 (world : World) (w : Wrapper) (t : Int) (st : ExecState) :
    Option GoError × ExecState :=
  buildJava world (deploySuffixed w t) "java8" st

/-- The java11 build step as run second by `DeployStack`. -/
def deployB2 (world : World) (w : Wrapper) (t : Int) (st : ExecState) :
    Option GoError × ExecState :=
  buildJava world (deploySuffixed w t) "java11" (deployB1 world w t st).2

/-- The C# build step as run third by `DeployStack`. -/
def deployB3 (world : World) (w : Wrapper) (t : Int) (st : ExecState) :
    Option GoError × ExecState :=
  buildCsharp world (deploySuffixed w t) (deployB2 world w t st).2

/-- The Go build step as run fourth by `DeployStack`. -/
def deployB4 (world : World) (w : Wrapper) (t : Int) (st : ExecState) :
    Option GoError × ExecState :=
  buildGolang world (deploySuffixed w t) (deployB3 world w t st).2

/-! ## Concrete instances used by witnesses and counterexamples -/

/-- A subprocess that starts, copies both streams, and exits cleanly. -/
def okProc : ProcResult :=
  { startErr := none, stdoutCopyErr := none, stderrCopyErr := none,
    stdoutData := "", exitErr := none }

/-- A parsed descriptor with no functions and no placeholder. -/
def stack0 : ServiceStack :=
  { StackId := "demo", Provider := { Name := "aws", Project := "p", Stage := "dev" },
    Functions := [] }

/-- A freshly constructed wrapper for descriptor `stack0`. -/
def wrapper0 : Wrapper :=
  { provider := "aws", slsPath := "/usr/bin/sls", yamlDirPath := "proj",
    stack := stack0, suffix := "", Opts := [] }

/-- The initial instrumentation state. -/
def st0 : ExecState := { nextProc := 0, trace := [] }

/-- A world where every runtime directory is absent and every process
succeeds. -/
def quietWorld : World :=
  { stat := fun _ => .notExist, proc := fun _ => okProc,
    lookPath := fun _ => .ok "/usr/bin/sls",
    readFile := fun _ => .ok "", unmarshal := fun _ => .error "unused" }

/-- A world where every subprocess exits with the error `boom`. -/
def allFailWorld : World :=
  { quietWorld with proc := fun _ => { okProc with exitErr := some "boom" } }

/-- A world where the first subprocess fails and every later one
succeeds printing `ok`. -/
def secondTryWorld : World :=
  { quietWorld with proc := fun n =>
      if n = 0 then { okProc with exitErr := some "boom" }
      else { okProc with stdoutData := "ok" } }

/-- A world where only `proj/golang` exists. -/
def goWorld : World :=
  { quietWorld with stat := fun p => if p = "proj/golang" then .found else .notExist }

/-- A world where only `proj/java8` exists and its build fails with a
non-advisory error. -/
def java8FailWorld : World :=
  { quietWorld with
    stat := fun p => if p = "proj/java8" then .found else .notExist,
    proc := fun _ => { okProc with exitErr := some "mvnboom" } }

/-- A world where only `proj/java8` exists and its build fails with an
advisory `WARNING` error. -/
def java8WarnWorld : World :=
  { quietWorld with
    stat := fun p => if p = "proj/java8" then .found else .notExist,
    proc := fun _ => { okProc with exitErr := some "WARNING: advisory" } }

/-- A world whose first subprocess suffers a stream-copy failure while
also exiting non-zero. -/
def copyFailWorld : World :=
  { quietWorld with proc := fun _ =>
      { okProc with stdoutCopyErr := some "copy failed", exitErr := some "exit status 1" } }

/-- A descriptor declaring provider `gcp`. -/
def stackGcp : ServiceStack :=
  { stack0 with Provider := { Name := "gcp", Project := "p", Stage := "dev" } }

/-- A world whose descriptor file deserializes to `stackGcp`. -/
def gcpWorld : World :=
  { quietWorld with unmarshal := fun _ => .ok stackGcp }

/-- A world whose descriptor file deserializes to `stack0`. -/
def awsWorld : World :=
  { quietWorld with unmarshal := fun _ => .ok stack0 }

/-- A wrapper whose stack identifier contains the hyphen-prefixed
placeholder. -/
def cexWrapperC3 : Wrapper :=
  { wrapper0 with stack := { stack0 with StackId := "demo-$\x7bopt:suffix\x7d" } }

/-- A wrapper whose stack identifier contains the placeholder without a
preceding hyphen. -/
def cexWrapperC4 : Wrapper :=
  { wrapper0 with stack := { stack0 with StackId := "x$\x7bopt:suffix\x7d" } }

/-- A wrapper with one function whose name contains the placeholder. -/
def wrapperHello : Wrapper :=
  { wrapper0 with stack := { stack0 with Functions :=
      [("hello", { Name := "hello-$\x7bopt:suffix\x7d", Handler := "h",
                   Description := "d", Runtime := "r", MemorySize := "m" })] } }

/-! ## Lemmas about the string primitives -/

theorem isPrefixOf_cons₂ (a b : Char) (as bs : List Char) :
    (a :: as).isPrefixOf (b :: bs) = (a == b && as.isPrefixOf bs) := rfl

theorem replaceAllF_succ (old new : List Char) (fuel : Nat) (s : List Char) :
    replaceAllF old new (fuel + 1) s =
      if old = [] then s
      else
        match s with
        | [] => []
        | c :: rest =>
          if old.isPrefixOf (c :: rest) then
            new ++ replaceAllF old new fuel ((c :: rest).drop old.length)
          else
            c :: replaceAllF old new fuel rest := rfl

theorem replaceAllF_succ_nil (old new : List Char) (fuel : Nat) :
    replaceAllF old new (fuel + 1) [] = [] := by
  rw [replaceAllF_succ]
  split <;> rfl

theorem replaceAllF_cons (old new : List Char) (hold : old ≠ []) (fuel : Nat)
    (c : Char) (rest : List Char) :
    replaceAllF old new (fuel + 1) (c :: rest) =
      if old.isPrefixOf (c :: rest) then
        new ++ replaceAllF old new fuel ((c :: rest).drop old.length)
      else
        c :: replaceAllF old new fuel rest := by
  rw [replaceAllF_succ, if_neg hold]

/-- An occurrence scan ignores a leading block whose characters do not
occur in the (non-empty) pattern. -/
theorem containsSeq_append_disjoint (old : List Char) (hold : old ≠ []) :
    ∀ (l₁ l₂ : List Char), (∀ c ∈ l₁, c ∉ old) →
      containsSeq old (l₁ ++ l₂) = containsSeq old l₂ := by
  intro l₁
  induction l₁ with
  | nil => intro l₂ _; rfl
  | cons x l₁ ih =>
    intro l₂ hd
    obtain ⟨o, old', holdeq⟩ := List.exists_cons_of_ne_nil hold
    have hxo : (o == x) = false := by
      have hx : x ∉ old := hd x (List.mem_cons_self _ _)
      rw [beq_eq_false_iff_ne]
      intro h
      exact hx (by rw [holdeq, ← h]; exact List.mem_cons_self _ _)
    have step : containsSeq old (x :: (l₁ ++ l₂)) =
        (old.isPrefixOf (x :: (l₁ ++ l₂)) || containsSeq old (l₁ ++ l₂)) := rfl
    rw [List.cons_append, step, holdeq, isPrefixOf_cons₂, hxo, Bool.false_and,
      Bool.false_or, ← holdeq]
    exact ih l₂ fun c hc => hd c (List.mem_cons_of_mem _ hc)

/-- A non-empty block of characters not occurring in `new` that is a
prefix of a `replaceAllF` output is already a prefix of the input. -/
theorem isPrefixOf_through_replaceAllF (old new : List Char)
    (hold : old ≠ []) (hnew : new ≠ []) :
    ∀ (fuel : Nat) (s p : List Char), p ≠ [] → (∀ c ∈ p, c ∉ new) →
      p.isPrefixOf (replaceAllF old new fuel s) = true →
      p.isPrefixOf s = true := by
  intro fuel
  induction fuel with
  | zero => intro s p _ _ hpre; exact hpre
  | succ fuel ih =>
    intro s p hp hd hpre
    cases s with
    | nil =>
      rw [replaceAllF_succ_nil] at hpre
      exact hpre
    | cons c rest =>
      rw [replaceAllF_cons old new hold] at hpre
      by_cases hpf : old.isPrefixOf (c :: rest) = true
      · rw [if_pos hpf] at hpre
        obtain ⟨q, p', hpeq⟩ := List.exists_cons_of_ne_nil hp
        obtain ⟨n₀, new', hneweq⟩ := List.exists_cons_of_ne_nil hnew
        rw [hpeq, hneweq, List.cons_append, isPrefixOf_cons₂, Bool.and_eq_true,
          beq_iff_eq] at hpre
        exact absurd (by rw [hneweq, hpre.1]; exact List.mem_cons_self _ _)
          (hd q (hpeq ▸ List.mem_cons_self _ _))
      · rw [if_neg hpf] at hpre
        obtain ⟨q, p', hpeq⟩ := List.exists_cons_of_ne_nil hp
        rw [hpeq, isPrefixOf_cons₂, Bool.and_eq_true] at hpre
        rw [hpeq, isPrefixOf_cons₂, Bool.and_eq_true]
        refine ⟨hpre.1, ?_⟩
        cases p' with
        | nil => simp
        | cons q' p'' =>
          exact ih rest (q' :: p'') (by simp)
            (fun c hc => hd c (hpeq ▸ List.mem_cons_of_mem _ hc)) hpre.2

/-- Replacing every occurrence of a non-empty pattern `old` by a
non-empty replacement `new` sharing no character with `old` leaves no
occurrence of `old`. -/
theorem containsSeq_replaceAllF (old new : List Char)
    (hold : old ≠ []) (hnew : new ≠ []) (hdisj : ∀ c ∈ new, c ∉ old) :
    ∀ (fuel : Nat) (s : List Char), s.length ≤ fuel →
      containsSeq old (replaceAllF old new fuel s) = false := by
  intro fuel
  induction fuel with
  | zero =>
    intro s hs
    rw [List.eq_nil_of_length_eq_zero (Nat.le_zero.mp hs)]
    show old.isEmpty = false
    simpa [List.isEmpty_iff] using hold
  | succ fuel ih =>
    intro s hs
    cases s with
    | nil =>
      rw [replaceAllF_succ_nil]
      show old.isEmpty = false
      simpa [List.isEmpty_iff] using hold
    | cons c rest =>
      rw [replaceAllF_cons old new hold]
      have hrest : rest.length ≤ fuel := by
        simpa [Nat.succ_le_succ_iff] using hs
      by_cases hpf : old.isPrefixOf (c :: rest) = true
      · rw [if_pos hpf]
        rw [containsSeq_append_disjoint old hold new _ hdisj]
        apply ih
        have h1 : 0 < old.length := List.length_pos.mpr hold
        have h2 : ((c :: rest).drop old.length).length = rest.length + 1 - old.length := by
          simp [List.length_drop]
        omega
      · rw [if_neg hpf]
        have hR : containsSeq old (replaceAllF old new fuel rest) = false := ih rest hrest
        show (old.isPrefixOf (c :: replaceAllF old new fuel rest) ||
          containsSeq old (replaceAllF old new fuel rest)) = false
        rw [hR, Bool.or_false]
        obtain ⟨o, old', holdeq⟩ := List.exists_cons_of_ne_nil hold
        rw [holdeq, isPrefixOf_cons₂]
        cases hoc : (o == c) with
        | false => rw [Bool.false_and]
        | true =>
          rw [Bool.true_and]
          cases hop : old'.isPrefixOf (replaceAllF old new fuel rest) with
          | false => rw [← holdeq]; exact hop
          | true =>
            exfalso
            apply hpf
            rcases eq_or_ne old' [] with h | h
            · rw [holdeq, h, isPrefixOf_cons₂, hoc, Bool.true_and]
              simp
            · have hmem : ∀ x ∈ old', x ∉ new := by
                intro x hx hxnew
                exact hdisj x hxnew (holdeq ▸ List.mem_cons_of_mem _ hx)
              have htr := isPrefixOf_through_replaceAllF old new hold hnew
                fuel rest old' h hmem hop
              rw [holdeq, isPrefixOf_cons₂, hoc, Bool.true_and]
              exact htr

/-- String-level corollary: after a full Go `strings.Replace`, no
occurrence of the pattern remains (non-empty pattern, non-empty
replacement, disjoint character sets). -/
theorem containsSeq_stringsReplace (s old new : String)
    (hold : old.data ≠ []) (hnew : new.data ≠ [])
    (hdisj : ∀ c ∈ new.data, c ∉ old.data) :
    containsSeq old.data (stringsReplace s old new).data = false :=
  containsSeq_replaceAllF old.data new.data hold hnew hdisj s.data.length s.data le_rfl

/-! ## Lemmas about the decimal rendering -/

theorem digitChar_mem_digits10 : ∀ m, m < 10 → Nat.digitChar m ∈ digits10 := by decide

theorem mem_toDigitsCore :
    ∀ (fuel n : Nat) (ds : List Char), (∀ c ∈ ds, c ∈ digits10) →
      ∀ c ∈ Nat.toDigitsCore 10 fuel n ds, c ∈ digits10 := by
  intro fuel
  induction fuel with
  | zero => intro n ds hds c hc; exact hds c hc
  | succ fuel ih =>
    intro n ds hds c hc
    have hcons : ∀ x ∈ Nat.digitChar (n % 10) :: ds, x ∈ digits10 := by
      intro x hx
      rcases List.mem_cons.mp hx with h | h
      · exact h ▸ digitChar_mem_digits10 _ (Nat.mod_lt _ (by omega))
      · exact hds x h
    simp only [Nat.toDigitsCore] at hc
    split at hc
    · exact hcons c hc
    · exact ih _ _ hcons c hc

theorem toDigitsCore_ne_nil :
    ∀ (fuel n : Nat) (ds : List Char), ds ≠ [] →
      Nat.toDigitsCore 10 fuel n ds ≠ [] := by
  intro fuel
  induction fuel with
  | zero => intro n ds h; exact h
  | succ fuel ih =>
    intro n ds h
    simp only [Nat.toDigitsCore]
    split
    · simp
    · exact ih _ _ (by simp)

theorem toDigits_ne_nil (n : Nat) : Nat.toDigits 10 n ≠ [] := by
  unfold Nat.toDigits
  simp only [Nat.toDigitsCore]
  split
  · simp
  · exact toDigitsCore_ne_nil _ _ _ (by simp)

theorem mem_natRepr (n : Nat) : ∀ c ∈ (Nat.repr n).data, c ∈ digits10 := by
  intro c hc
  exact mem_toDigitsCore _ _ _ (by intro x hx; cases hx) c hc

theorem formatInt_data_ne_nil (i : Int) : (formatInt i).data ≠ [] := by
  cases i with
  | ofNat m =>
    show (Nat.repr m).data ≠ []
    exact toDigits_ne_nil m
  | negSucc m =>
    show (("-" ++ Nat.repr (m + 1)) : String).data ≠ []
    rw [String.data_append]
    simp

theorem mem_formatInt_data (i : Int) :
    ∀ c ∈ (formatInt i).data, c = '-' ∨ c ∈ digits10 := by
  intro c hc
  cases i with
  | ofNat m => exact Or.inr (mem_natRepr m c hc)
  | negSucc m =>
    have : c ∈ (("-" : String) ++ Nat.repr (m + 1)).data := hc
    rw [String.data_append] at this
    rcases List.mem_append.mp this with h | h
    · left
      simpa using h
    · exact Or.inr (mem_natRepr (m + 1) c h)

/-- No character of a decimal rendering occurs in the placeholder. -/
theorem formatInt_disjoint_placeholder (i : Int) :
    ∀ c ∈ (formatInt i).data, c ∉ placeholder.data := by
  intro c hc
  have h1 : ('-' : Char) ∉ placeholder.data := by decide
  have h2 : ∀ c ∈ digits10, c ∉ placeholder.data := by decide
  rcases mem_formatInt_data i c hc with h | h
  · exact h ▸ h1
  · exact h2 c h

/-! ## Lemmas about the command executor and the retry loop -/

theorem execCmd_fst (world : World) (env : List String) (dir command : String)
    (cmdArgs : List String) (st : ExecState) :
    (execCmd world env dir command cmdArgs st).1 =
      execCmdOutcome (world.proc st.nextProc) := by
  unfold execCmd execCmdOutcome
  rcases h : (world.proc st.nextProc).startErr with _ | e
  · simp only [h]
    split <;> rfl
  · simp only [h]

theorem execCmd_snd (world : World) (env : List String) (dir command : String)
    (cmdArgs : List String) (st : ExecState) :
    (execCmd world env dir command cmdArgs st).2 =
      { nextProc := st.nextProc + 1,
        trace := st.trace ++
          [Event.exec { prog := command, args := cmdArgs, dir := dir, env := none }] } := by
  unfold execCmd
  rcases h : (world.proc st.nextProc).startErr with _ | e
  · simp only [h]
    split <;> rfl
  · simp only [h]

theorem execSlsCmdLoop_none (world : World) (funcDir : String) (args : List String)
    (resp : String) (r : Nat) (st : ExecState) :
    execSlsCmdLoop world funcDir args resp none r st = ((resp, none), st) := by
  cases r <;> rfl

theorem execSlsCmdLoop_zero (world : World) (funcDir : String) (args : List String)
    (resp : String) (e : GoError) (st : ExecState) :
    execSlsCmdLoop world funcDir args resp (some e) 0 st = ((resp, some e), st) := rfl

theorem execSlsCmdLoop_succ (world : World) (funcDir : String) (args : List String)
    (resp : String) (e : GoError) (r : Nat) (st : ExecState) :
    execSlsCmdLoop world funcDir args resp (some e) (r + 1) st =
      execSlsCmdLoop world funcDir args
        (execCmd world [] funcDir "sls" args st).1.1
        (execCmd world [] funcDir "sls" args st).1.2 r
        { (execCmd world [] funcDir "sls" args st).2 with
          trace := (execCmd world [] funcDir "sls" args st).2.trace ++
            [Event.sleepSeconds 5] } := rfl
 
/-- One unrolling of the retry loop with the executor's effect
flattened: consume one process, log the start and a five-second sleep,
and continue with the decremented budget. -/
theorem execSlsCmdLoop_succ' (world : World) (funcDir : String) (args : List String)
    (resp : String) (e : GoError) (r : Nat) (st : ExecState) :
    execSlsCmdLoop world funcDir args resp (some e) (r + 1) st =
      execSlsCmdLoop world funcDir args
        (execCmdOutcome (world.proc st.nextProc)).1
        (execCmdOutcome (world.proc st.nextProc)).2 r
        { nextProc := st.nextProc + 1,
          trace := st.trace ++
            [Event.exec ⟨"sls", args, funcDir, none⟩, Event.sleepSeconds 5] } := by
  rw [execSlsCmdLoop_succ, execCmd_fst, execCmd_snd]
  congr 1
  simp

/-- If every attempt the loop can make fails, a loop with budget `r + 1`
runs exactly `r + 1` further attempts, sleeps after each of them, and
returns the outcome of the last attempt. -/
theorem execSlsCmdLoop_all_fail (world : World) (funcDir : String) (args : List String) :
    ∀ (r : Nat) (st : ExecState) (resp : String) (e : GoError),
      (∀ j, j < r + 1 → (execCmdOutcome (world.proc (st.nextProc + j))).2 ≠ none) →
      execSlsCmdLoop world funcDir args resp (some e) (r + 1) st =
        (execCmdOutcome (world.proc (st.nextProc + r)),
         { nextProc := st.nextProc + r + 1,
           trace := st.trace ++
             retryTrace (Event.exec ⟨"sls", args, funcDir, none⟩) (r + 1) }) := by
  intro r
  induction r with
  | zero =>
    intro st resp e hf
    rw [execSlsCmdLoop_succ']
    have h0 := hf 0 (by omega)
    rw [Nat.add_zero] at h0
    rcases ho : (execCmdOutcome (world.proc st.nextProc)).2 with _ | e'
    · exact absurd ho h0
    · rw [execSlsCmdLoop_zero, ← ho, Prod.mk.eta]
      rw [Nat.add_zero]
      refine congrArg₂ Prod.mk rfl ?_
      simp [retryTrace]
  | succ r ih =>
    intro st resp e hf
    rw [execSlsCmdLoop_succ']
    have h0 := hf 0 (by omega)
    rw [Nat.add_zero] at h0
    rcases ho : (execCmdOutcome (world.proc st.nextProc)).2 with _ | e'
    · exact absurd ho h0
    · rw [ih _ _ e' ?hfail]
      case hfail =>
        intro j hj
        have h2 := hf (j + 1) (by omega)
        have h3 : st.nextProc + (j + 1) = st.nextProc + 1 + j := by omega
        rw [h3] at h2
        simpa using h2
      dsimp only
      refine congrArg₂ Prod.mk ?_ ?_
      · have h4 : st.nextProc + 1 + r = st.nextProc + (r + 1) := by omega
        simp only [h4]
      · have h4 : st.nextProc + 1 + r + 1 = st.nextProc + (r + 1) + 1 := by omega
        simp only [h4]
        refine congrArg₂ ExecState.mk rfl ?_
        simp [retryTrace]

/-- If the first `f` attempts available to the loop fail and attempt `f`
succeeds (with `f` within budget), the loop stops after attempt `f`,
returning its output with no error; a five-second sleep still follows
every attempt made inside the loop, the successful one included. -/
theorem execSlsCmdLoop_succeeds (world : World) (funcDir : String) (args : List String) :
    ∀ (f r : Nat) (st : ExecState) (resp : String) (e : GoError),
      f < r →
      (∀ j, j < f → (execCmdOutcome (world.proc (st.nextProc + j))).2 ≠ none) →
      (execCmdOutcome (world.proc (st.nextProc + f))).2 = none →
      execSlsCmdLoop world funcDir args resp (some e) r st =
        (((execCmdOutcome (world.proc (st.nextProc + f))).1, none),
         { nextProc := st.nextProc + f + 1,
           trace := st.trace ++
             retryTrace (Event.exec ⟨"sls", args, funcDir, none⟩) (f + 1) }) := by
  intro f
  induction f with
  | zero =>
    intro r st resp e hr hf hsucc
    obtain ⟨r', rfl⟩ : ∃ r', r = r' + 1 := ⟨r - 1, by omega⟩
    rw [Nat.add_zero] at hsucc
    rw [execSlsCmdLoop_succ', hsucc, execSlsCmdLoop_none]
    rw [Nat.add_zero]
    refine congrArg₂ Prod.mk rfl ?_
    refine congrArg₂ ExecState.mk rfl ?_
    simp [retryTrace]
  | succ f ih =>
    intro r st resp e hr hf hsucc
    obtain ⟨r', rfl⟩ : ∃ r', r = r' + 1 := ⟨r - 1, by omega⟩
    rw [execSlsCmdLoop_succ']
    have h0 := hf 0 (by omega)
    rw [Nat.add_zero] at h0
    rcases ho : (execCmdOutcome (world.proc st.nextProc)).2 with _ | e'
    · exact absurd ho h0
    · have harith : st.nextProc + 1 + f = st.nextProc + (f + 1) := by omega
      rw [ih r' _ _ e' (by omega) ?hfail ?hsucc2]
      case hfail =>
        intro j hj
        have h2 := hf (j + 1) (by omega)
        have h3 : st.nextProc + (j + 1) = st.nextProc + 1 + j := by omega
        rw [h3] at h2
        simpa using h2
      case hsucc2 =>
        dsimp only
        rw [harith]
        exact hsucc
      dsimp only
      refine congrArg₂ Prod.mk ?_ ?_
      · simp only [harith]
      · have h4 : st.nextProc + 1 + f + 1 = st.nextProc + (f + 1) + 1 := by omega
        simp only [h4]
        refine congrArg₂ ExecState.mk rfl ?_
        simp [retryTrace]

/-- Every event the retry loop adds to the trace is either a sleep or
a start of the fixed sls command. -/
theorem execSlsCmdLoop_trace_mem (world : World) (funcDir : String) (args : List String) :
    ∀ (r : Nat) (st : ExecState) (resp : String) (eo : Option GoError) (ev : Event),
      ev ∈ (execSlsCmdLoop world funcDir args resp eo r st).2.trace →
      ev ∈ st.trace ∨ ev = Event.sleepSeconds 5 ∨
        ev = Event.exec ⟨"sls", args, funcDir, none⟩ := by
  intro r
  induction r with
  | zero =>
    intro st resp eo ev h
    cases eo with
    | none => rw [execSlsCmdLoop_none] at h; exact Or.inl h
    | some e => rw [execSlsCmdLoop_zero] at h; exact Or.inl h
  | succ r ih =>
    intro st resp eo ev h
    cases eo with
    | none => rw [execSlsCmdLoop_none] at h; exact Or.inl h
    | some e =>
      rw [execSlsCmdLoop_succ, execCmd_fst, execCmd_snd] at h
      rcases ih _ _ _ ev h with h' | h' | h'
      · simp only [List.mem_append, List.mem_singleton] at h'
        rcases h' with ⟨h'' | h''⟩ | h''
        · exact Or.inl h''
        · exact Or.inr (Or.inr h'')
        · exact Or.inr (Or.inl h'')
      · exact Or.inr (Or.inl h')
      · exact Or.inr (Or.inr h')

/-- Every event `execSlsCmd` adds to the trace is either a sleep or a
start of the sls command with the suffix flag and option flags appended. -/
theorem execSlsCmd_trace_mem (world : World) (w : Wrapper) (funcDir : String)
    (slsCmd : List String) (st : ExecState) (ev : Event) :
    ev ∈ (execSlsCmd world w funcDir slsCmd st).2.trace →
    ev ∈ st.trace ∨ ev = Event.sleepSeconds 5 ∨ ev = slsEvent w funcDir slsCmd := by
  intro h
  unfold execSlsCmd at h
  rcases execSlsCmdLoop_trace_mem world funcDir
      (slsCmd ++ ["--suffix", w.suffix] ++ optFlags w.Opts) slsRetries _ _ _ ev h
    with h' | h' | h'
  · rw [execCmd_snd] at h'
    simp only [List.mem_append, List.mem_singleton] at h'
    rcases h' with h'' | h''
    · exact Or.inl h''
    · exact Or.inr (Or.inr (by rw [h'']; rfl))
  · exact Or.inr (Or.inl h')
  · exact Or.inr (Or.inr (by rw [h']; rfl))

/-- The wrapper component returned by `DeployStack` is always the
suffixed, rewritten wrapper, whichever way the build steps went. -/
theorem DeployStack_wrapper (world : World) (w : Wrapper) (t : Int) (st : ExecState) :
    (DeployStack world w t st).2.1 = deploySuffixed w t := by
  simp only [DeployStack]
  rcases h1 : buildJava world (deploySuffixed w t) "java8" st with ⟨e1, st1⟩
  cases e1 with
  | some err => rfl
  | none =>
    dsimp only
    rcases h2 : buildJava world (deploySuffixed w t) "java11" st1 with ⟨e2, st2⟩
    cases e2 with
    | some err => rfl
    | none =>
      dsimp only
      rcases h3 : buildCsharp world (deploySuffixed w t) st2 with ⟨e3, st3⟩
      cases e3 with
      | some err => rfl
      | none =>
        dsimp only
        rcases h4 : buildGolang world (deploySuffixed w t) st3 with ⟨e4, st4⟩
        cases e4 with
        | some err => rfl
        | none => rfl

/-! ## Claim theorems -/

/-- Claim C9: for every execution by the Command Executor (`execCmd`):
if the process fails to start, the start error is surfaced immediately
with no output captured; if copying either output stream fails, the
generic capture-failure error is returned and takes precedence over the
subprocess's own exit error; otherwise the trimmed captured standard
output is returned together with the process's exit error (nil on
success). -/
theorem execCmd_error_policy (world : World) (env : List String)
    (dir command : String) (cmdArgs : List String) (st : ExecState) :
    (∀ e, (world.proc st.nextProc).startErr = some e →
      (execCmd world env dir command cmdArgs st).1 = ("", some e)) ∧
    ((world.proc st.nextProc).startErr = none →
      ((world.proc st.nextProc).stdoutCopyErr ≠ none ∨
       (world.proc st.nextProc).stderrCopyErr ≠ none) →
      (execCmd world env dir command cmdArgs st).1 =
        ("", some "failed to capture stdout or stderr")) ∧
    ((world.proc st.nextProc).startErr = none →
      (world.proc st.nextProc).stdoutCopyErr = none →
      (world.proc st.nextProc).stderrCopyErr = none →
      (execCmd world env dir command cmdArgs st).1 =
        (trimSpace (world.proc st.nextProc).stdoutData,
         (world.proc st.nextProc).exitErr)) := by
  refine ⟨?_, ?_, ?_⟩
  · intro e he
    rw [execCmd_fst]
    unfold execCmdOutcome
    rw [he]
  · intro h1 h2
    rw [execCmd_fst]
    unfold execCmdOutcome
    rw [h1]
    have hc : ((world.proc st.nextProc).stdoutCopyErr.isSome ||
        (world.proc st.nextProc).stderrCopyErr.isSome) = true := by
      rcases h2 with h | h <;> simp [Option.isSome_iff_ne_none, h]
    rw [hc]
    rfl
  · intro h1 h2 h3
    rw [execCmd_fst]
    unfold execCmdOutcome
    rw [h1, h2, h3]
    rfl

/-- Claim C9 witness: a concrete run where a stream copy fails while the
process also exits non-zero: the capture-failure error wins. -/
theorem execCmd_error_policy_witness :
    (copyFailWorld.proc st0.nextProc).startErr = none ∧
    (copyFailWorld.proc st0.nextProc).stdoutCopyErr ≠ none ∧
    (execCmd copyFailWorld [] "proj" "x" [] st0).1 =
      ("", some "failed to capture stdout or stderr") :=
  ⟨rfl, by decide,
    (execCmd_error_policy copyFailWorld [] "proj" "x" [] st0).2.1 rfl
      (Or.inl (by decide))⟩

/-- Claim C8: for every Java build step whose `mvn package` subprocess
returns an error: if the error text starts with `WARNING`, the step
swallows it and returns no error; every other non-nil error is returned
to the caller unchanged, with the one mvn start logged either way. -/
theorem buildJava_warning_policy (world : World) (w : Wrapper) (version : String)
    (st : ExecState) (e : GoError)
    (hdir : world.stat (pathJoin w.yamlDirPath version) = .found)
    (herr : (execCmdOutcome (world.proc st.nextProc)).2 = some e) :
    buildJava world w version st =
      ((if hasPrefixStr "WARNING" e then none else some e),
       { nextProc := st.nextProc + 1,
         trace := st.trace ++ [Event.exec
           { prog := "mvn", args := ["package"],
             dir := pathJoin w.yamlDirPath version, env := none }] }) := by
  unfold buildJava platformPath
  dsimp only
  rw [hdir]
  dsimp only
  rw [execCmd_fst, execCmd_snd, herr]
  dsimp only
  by_cases hw : hasPrefixStr "WARNING" e = true
  · rw [if_pos hw, if_pos hw]
  · rw [if_neg hw, if_neg hw]

/-- Claim C8 witness: a concrete advisory `WARNING` error from mvn is
swallowed. -/
theorem buildJava_warning_policy_witness :
    java8WarnWorld.stat (pathJoin wrapper0.yamlDirPath "java8") = .found ∧
    (execCmdOutcome (java8WarnWorld.proc st0.nextProc)).2 = some "WARNING: advisory" ∧
    (buildJava java8WarnWorld wrapper0 "java8" st0).1 = none := by
  refine ⟨by decide, rfl, ?_⟩
  have h := buildJava_warning_policy java8WarnWorld wrapper0 "java8" st0
    "WARNING: advisory" (by decide) rfl
  rw [h]
  decide

/-- Claim C6: a build step (Java with either version tag, C#, Go) whose
runtime subdirectory does not exist starts no subprocess and returns no
error: the result is `none` and the instrumentation state is returned
unchanged. -/
theorem buildStep_absent_noop (world : World) (w : Wrapper) (st : ExecState) :
    (∀ version, world.stat (pathJoin w.yamlDirPath version) = .notExist →
      buildJava world w version st = (none, st)) ∧
    (world.stat (pathJoin w.yamlDirPath "csharp") = .notExist →
      buildCsharp world w st = (none, st)) ∧
    (world.stat (pathJoin w.yamlDirPath "golang") = .notExist →
      buildGolang world w st = (none, st)) := by
  refine ⟨?_, ?_, ?_⟩
  · intro version h
    unfold buildJava platformPath
    dsimp only
    rw [h]
  · intro h
    unfold buildCsharp platformPath
    dsimp only
    rw [h]
  · intro h
    unfold buildGolang platformPath
    dsimp only
    rw [h]

/-- Claim C6 witness: with every directory absent, the java8 step is a
no-op with no error and no trace growth. -/
theorem buildStep_absent_noop_witness :
    quietWorld.stat (pathJoin wrapper0.yamlDirPath "java8") = .notExist ∧
    buildJava quietWorld wrapper0 "java8" st0 = (none, st0) :=
  ⟨rfl, (buildStep_absent_noop quietWorld wrapper0 st0).1 "java8" rfl⟩

/-- Claim C5: `ParseConfig` returns an error exactly when the descriptor
file is unreadable, the content cannot be deserialized, or the declared
provider differs from the expected one (the three cases are exhaustive):
a read error and a deserialization error are returned as is, a provider
mismatch yields the error naming both the expected and the found
provider, and otherwise the parsed model is returned. -/
theorem ParseConfig_spec (world : World) (provider yamlDirPath : String) :
    (∀ e, world.readFile (pathJoin yamlDirPath YamlName) = .error e →
      ParseConfig world provider yamlDirPath = .error e) ∧
    (∀ d e, world.readFile (pathJoin yamlDirPath YamlName) = .ok d →
      world.unmarshal d = .error e →
      ParseConfig world provider yamlDirPath = .error e) ∧
    (∀ d s, world.readFile (pathJoin yamlDirPath YamlName) = .ok d →
      world.unmarshal d = .ok s → provider ≠ s.Provider.Name →
      ParseConfig world provider yamlDirPath =
        .error ("expected provider " ++ provider ++ ", found provider: " ++
          s.Provider.Name)) ∧
    (∀ d s, world.readFile (pathJoin yamlDirPath YamlName) = .ok d →
      world.unmarshal d = .ok s → provider = s.Provider.Name →
      ParseConfig world provider yamlDirPath = .ok s) := by
  refine ⟨?_, ?_, ?_, ?_⟩
  · intro e he
    unfold ParseConfig
    rw [he]
  · intro d e hd he
    unfold ParseConfig
    rw [hd]
    dsimp only
    rw [he]
  · intro d s hd hs hne
    unfold ParseConfig
    rw [hd]
    dsimp only
    rw [hs]
    dsimp only
    rw [if_pos hne]
  · intro d s hd hs heq
    unfold ParseConfig
    rw [hd]
    dsimp only
    rw [hs]
    dsimp only
    rw [if_neg (not_not_intro heq)]

/-- Claim C5 witness: a descriptor declaring provider `gcp` parsed with
expected provider `aws` fails with the error naming both. -/
theorem ParseConfig_spec_witness :
    gcpWorld.readFile (pathJoin "proj" YamlName) = .ok "" ∧
    gcpWorld.unmarshal "" = .ok stackGcp ∧
    "aws" ≠ stackGcp.Provider.Name ∧
    ParseConfig gcpWorld "aws" "proj" =
      .error "expected provider aws, found provider: gcp" := by
  refine ⟨rfl, rfl, by decide, ?_⟩
  have h := (ParseConfig_spec gcpWorld "aws" "proj").2.2.1 "" stackGcp rfl rfl
    (by decide)
  exact h.trans (congrArg Except.error (by decide))

/-- Claim C2 (code bug): `execCmd` never assigns `cmd.Env`, so the
started command always records `env := none` (inherit the parent
environment) whatever environment list the caller passes; in
particular, with the golang directory present, the `go build`
subprocess started by `buildGolang` does not receive the
`GOOS=linux` / `GO111MODULE=on` overrides the source passes down. -/
theorem execCmd_drops_env :
    (∀ (world : World) (env : List String) (dir command : String)
      (cmdArgs : List String) (st : ExecState),
      (execCmd world env dir command cmdArgs st).2.trace =
        st.trace ++ [Event.exec
          { prog := command, args := cmdArgs, dir := dir, env := none }]) ∧
    (buildGolang goWorld wrapper0 st0).2.trace =
      [Event.exec
        { prog := "go",
          args := ["build", "-ldflags", "-s", "-ldflags", "-w", "-o",
            "bin/hello", "main.go"],
          dir := "proj/golang", env := none }] := by
  constructor
  · intro world env dir command cmdArgs st
    rw [execCmd_snd]
  · decide

/-- The retry loop only appends to the trace. -/
theorem execSlsCmdLoop_trace_append (world : World) (funcDir : String)
    (args : List String) :
    ∀ (r : Nat) (st : ExecState) (resp : String) (eo : Option GoError),
      ∃ added, (execSlsCmdLoop world funcDir args resp eo r st).2.trace =
        st.trace ++ added := by
  intro r
  induction r with
  | zero =>
    intro st resp eo
    cases eo with
    | none => exact ⟨[], by rw [execSlsCmdLoop_none]; simp⟩
    | some e => exact ⟨[], by rw [execSlsCmdLoop_zero]; simp⟩
  | succ r ih =>
    intro st resp eo
    cases eo with
    | none => exact ⟨[], by rw [execSlsCmdLoop_none]; simp⟩
    | some e =>
      rw [execSlsCmdLoop_succ']
      obtain ⟨added, ha⟩ := ih
        { nextProc := st.nextProc + 1,
          trace := st.trace ++
            [Event.exec ⟨"sls", args, funcDir, none⟩, Event.sleepSeconds 5] }
        (execCmdOutcome (world.proc st.nextProc)).1
        (execCmdOutcome (world.proc st.nextProc)).2
      refine ⟨[Event.exec ⟨"sls", args, funcDir, none⟩, Event.sleepSeconds 5] ++ added, ?_⟩
      rw [ha]
      simp

/-- Claim C10: every sls tool invocation appends `--suffix` followed by
the orchestrator's current suffix (and then the option flags) to the
argument list, unconditionally; a freshly constructed orchestrator has
suffix `""` and no options, so `RemoveStack` and `ListFunction` called
before any deploy invoke the tool with `--suffix` followed by the empty
string. -/
theorem slsCmd_suffix_flag (world : World) (w : Wrapper) (st : ExecState) :
    (∀ (funcDir : String) (slsCmd : List String) (ev : Event),
      ev ∈ (execSlsCmd world w funcDir slsCmd st).2.trace →
      ev ∈ st.trace ∨ ev = Event.sleepSeconds 5 ∨
        ev = Event.exec
              { prog := "sls",
                args := slsCmd ++ ["--suffix", w.suffix] ++ optFlags w.Opts,
                dir := funcDir, env := none }) ∧
    (∀ (provider yamlDirPath : String) (w' : Wrapper),
      New world provider yamlDirPath = .ok w' → w'.suffix = "" ∧ w'.Opts = []) ∧
    (w.suffix = "" → w.Opts = [] →
      (∃ tail, (RemoveStack world w st).2.trace = st.trace ++
        Event.exec
            { prog := "sls", args := ["remove", "--suffix", ""],
              dir := w.yamlDirPath, env := none } :: tail) ∧
      (∃ tail, (ListFunction world w st).2.trace = st.trace ++
        Event.exec
            { prog := "sls",
              args := ["deploy", "list", "functions", "--suffix", ""],
              dir := w.yamlDirPath, env := none } :: tail)) := by
  refine ⟨?_, ?_, ?_⟩
  · intro funcDir slsCmd ev h
    exact execSlsCmd_trace_mem world w funcDir slsCmd st ev h
  · intro provider yamlDirPath w' h
    unfold New at h
    rcases hl : getSLSPath world with e | path
    · rw [hl] at h
      exact Except.noConfusion h
    · rw [hl] at h
      dsimp only at h
      rcases hp : ParseConfig world provider yamlDirPath with e | stack
      · rw [hp] at h
        exact Except.noConfusion h
      · rw [hp] at h
        dsimp only at h
        injection h with h2
        subst h2
        exact ⟨rfl, rfl⟩
  · intro hsuf hopts
    constructor
    · unfold RemoveStack execSlsCmd
      dsimp only
      obtain ⟨added, ha⟩ := execSlsCmdLoop_trace_append world w.yamlDirPath
        (["remove"] ++ ["--suffix", w.suffix] ++ optFlags w.Opts) slsRetries
        (execCmd world [] w.yamlDirPath "sls"
          (["remove"] ++ ["--suffix", w.suffix] ++ optFlags w.Opts) st).2
        (execCmd world [] w.yamlDirPath "sls"
          (["remove"] ++ ["--suffix", w.suffix] ++ optFlags w.Opts) st).1.1
        (execCmd world [] w.yamlDirPath "sls"
          (["remove"] ++ ["--suffix", w.suffix] ++ optFlags w.Opts) st).1.2
      refine ⟨added, ?_⟩
      rw [ha, execCmd_snd]
      rw [hsuf, hopts]
      simp [optFlags]
    · unfold ListFunction execSlsCmd
      dsimp only
      obtain ⟨added, ha⟩ := execSlsCmdLoop_trace_append world w.yamlDirPath
        (["deploy", "list", "functions"] ++ ["--suffix", w.suffix] ++ optFlags w.Opts)
        slsRetries
        (execCmd world [] w.yamlDirPath "sls"
          (["deploy", "list", "functions"] ++ ["--suffix", w.suffix] ++
            optFlags w.Opts) st).2
        (execCmd world [] w.yamlDirPath "sls"
          (["deploy", "list", "functions"] ++ ["--suffix", w.suffix] ++
            optFlags w.Opts) st).1.1
        (execCmd world [] w.yamlDirPath "sls"
          (["deploy", "list", "functions"] ++ ["--suffix", w.suffix] ++
            optFlags w.Opts) st).1.2
      refine ⟨added, ?_⟩
      rw [ha, execCmd_snd]
      rw [hsuf, hopts]
      simp [optFlags]

/-- Claim C10 witness: a fresh wrapper has the empty suffix and no
options, and a concrete `RemoveStack` before any deploy starts the tool
with arguments `remove --suffix ""`. -/
theorem slsCmd_suffix_flag_witness :
    wrapper0.suffix = "" ∧ wrapper0.Opts = [] ∧
    ∃ tail, (RemoveStack quietWorld wrapper0 st0).2.trace = st0.trace ++
      Event.exec
          { prog := "sls", args := ["remove", "--suffix", ""],
            dir := wrapper0.yamlDirPath, env := none } :: tail :=
  ⟨rfl, rfl, ((slsCmd_suffix_flag quietWorld wrapper0 st0).2.2 rfl rfl).1⟩

/-- Claim C1 (amended): the Retrying Invoker makes one initial attempt
plus at most `slsRetries = 10` retried attempts, eleven in total. If the
first `N − 1` attempts fail and attempt `N` succeeds (`1 ≤ N ≤ 11`), it
returns that attempt's output with no error after exactly `N` start
attempts; if all eleven attempts fail, it returns the eleventh attempt's
outcome. The trace equations additionally pin the delays: no sleep
separates the initial attempt from the first retry, and a five-second
sleep follows every retried attempt, a successful one included. -/
theorem execSlsCmd_retry_spec (world : World) (w : Wrapper) (funcDir : String)
    (slsCmd : List String) (st : ExecState) :
    ((∀ j, j < slsRetries + 1 →
        (execCmdOutcome (world.proc (st.nextProc + j))).2 ≠ none) →
      execSlsCmd world w funcDir slsCmd st =
        (execCmdOutcome (world.proc (st.nextProc + slsRetries)),
         { nextProc := st.nextProc + slsRetries + 1,
           trace := st.trace ++ slsEvent w funcDir slsCmd ::
             retryTrace (slsEvent w funcDir slsCmd) slsRetries })) ∧
    (∀ N, 1 ≤ N → N ≤ slsRetries + 1 →
      (∀ j, j < N - 1 → (execCmdOutcome (world.proc (st.nextProc + j))).2 ≠ none) →
      (execCmdOutcome (world.proc (st.nextProc + (N - 1)))).2 = none →
      execSlsCmd world w funcDir slsCmd st =
        (((execCmdOutcome (world.proc (st.nextProc + (N - 1)))).1, none),
         { nextProc := st.nextProc + N,
           trace := st.trace ++ slsEvent w funcDir slsCmd ::
             retryTrace (slsEvent w funcDir slsCmd) (N - 1) })) := by
  constructor
  · intro hall
    unfold execSlsCmd
    dsimp only
    rw [execCmd_fst, execCmd_snd]
    have h0 := hall 0 (by simp [slsRetries])
    rw [Nat.add_zero] at h0
    rcases ho : (execCmdOutcome (world.proc st.nextProc)).2 with _ | e'
    · exact absurd ho h0
    · have hsls : slsRetries = 9 + 1 := rfl
      rw [hsls]
      rw [execSlsCmdLoop_all_fail world funcDir _ 9 _ _ e' ?hfail]
      case hfail =>
        intro j hj
        have h2 := hall (j + 1) (by simp only [slsRetries]; omega)
        have h3 : st.nextProc + (j + 1) = st.nextProc + 1 + j := by omega
        rw [h3] at h2
        simpa using h2
      dsimp only
      refine congrArg₂ Prod.mk ?_ ?_
      · rw [show st.nextProc + 1 + 9 = st.nextProc + slsRetries from by
          simp only [slsRetries]]
      · refine congrArg₂ ExecState.mk ?_ ?_
        · simp only [slsRetries]
        · simp only [slsEvent, slsRetries]
          simp [retryTrace]
  · intro N h1 h2 hfail hsucc
    obtain ⟨M, rfl⟩ : ∃ M, N = M + 1 := ⟨N - 1, by omega⟩
    simp only [Nat.add_sub_cancel] at hfail hsucc ⊢
    unfold execSlsCmd
    dsimp only
    rw [execCmd_fst, execCmd_snd]
    cases M with
    | zero =>
      rw [Nat.add_zero] at hsucc
      rw [hsucc, execSlsCmdLoop_none]
      refine congrArg₂ Prod.mk ?_ ?_
      · rw [Nat.add_zero]
      · refine congrArg₂ ExecState.mk rfl ?_
        simp [retryTrace, slsEvent]
    | succ M' =>
      have h0 := hfail 0 (by omega)
      rw [Nat.add_zero] at h0
      rcases ho : (execCmdOutcome (world.proc st.nextProc)).2 with _ | e'
      · exact absurd ho h0
      · have harith : st.nextProc + (M' + 1) = st.nextProc + 1 + M' := by omega
        rw [harith] at hsucc
        rw [execSlsCmdLoop_succeeds world funcDir _ M' slsRetries _ _ e'
          (by simp only [slsRetries] at h2 ⊢; omega) ?hf ?hs]
        case hf =>
          intro j hj
          have hj2 := hfail (j + 1) (by omega)
          have h3 : st.nextProc + (j + 1) = st.nextProc + 1 + j := by omega
          rw [h3] at hj2
          simpa using hj2
        case hs =>
          dsimp only
          exact hsucc
        dsimp only
        refine congrArg₂ Prod.mk ?_ ?_
        · rw [← harith]
        · refine congrArg₂ ExecState.mk (by omega) ?_
          simp [retryTrace, slsEvent]

/-- Claim C1 counterexample: with a tool that fails on every attempt,
`execSlsCmd` starts the command eleven times, not ten, before returning
the final attempt's error. -/
theorem execSlsCmd_eleven_attempts :
    (execSlsCmd allFailWorld wrapper0 "proj" ["deploy"] st0).1 = ("", some "boom") ∧
    countExecEvents (execSlsCmd allFailWorld wrapper0 "proj" ["deploy"] st0).2.trace = 11 ∧
    countExecEvents (execSlsCmd allFailWorld wrapper0 "proj" ["deploy"] st0).2.trace ≠ 10 :=
  ⟨by decide, by decide, by decide⟩

/-- Claim C1 witness: a command failing once and succeeding on the
second attempt returns that success after exactly two start attempts. -/
theorem execSlsCmd_retry_spec_witness :
    (∀ j, j < 2 - 1 →
      (execCmdOutcome (secondTryWorld.proc (st0.nextProc + j))).2 ≠ none) ∧
    (execCmdOutcome (secondTryWorld.proc (st0.nextProc + (2 - 1)))).2 = none ∧
    execSlsCmd secondTryWorld wrapper0 "proj" ["deploy"] st0 =
      (("ok", none),
       { nextProc := st0.nextProc + 2,
         trace := st0.trace ++ slsEvent wrapper0 "proj" ["deploy"] ::
           retryTrace (slsEvent wrapper0 "proj" ["deploy"]) (2 - 1) }) := by
  refine ⟨by decide, by decide, ?_⟩
  have h := (execSlsCmd_retry_spec secondTryWorld wrapper0 "proj" ["deploy"] st0).2
    2 (by omega) (by decide) (by decide) (by decide)
  rw [h]
  refine congrArg₂ Prod.mk (by decide) rfl

/-- Claim C3 (amended): after a `DeployStack` call the suffix is the
decimal rendering of the nanosecond timestamp, and every occurrence of
the placeholder in every function name has been replaced by that suffix
— no function name contains the placeholder any more (the suffix
consists of sign and digit characters, none of which occur in the
placeholder). The stack identifier field, however, is not rewritten. -/
theorem DeployStack_substitutes_names (world : World) (w : Wrapper) (t : Int)
    (st : ExecState) :
    (DeployStack world w t st).2.1.suffix = formatInt t ∧
    (DeployStack world w t st).2.1.stack.StackId = w.stack.StackId ∧
    (DeployStack world w t st).2.1.stack.Functions =
      w.stack.Functions.map (fun kv =>
        (kv.1, { kv.2 with Name := stringsReplace kv.2.Name placeholder (formatInt t) })) ∧
    ((DeployStack world w t st).2.1.stack.Functions.all fun kv =>
      !containsSeq placeholder.data kv.2.Name.data) = true := by
  rw [DeployStack_wrapper]
  refine ⟨rfl, rfl, rfl, ?_⟩
  rw [List.all_eq_true]
  intro kv hkv
  simp only [deploySuffixed, List.mem_map] at hkv
  obtain ⟨kv₀, hmem, heq⟩ := hkv
  rw [← heq]
  rw [Bool.not_eq_eq_eq_not]
  show containsSeq placeholder.data
    (stringsReplace kv₀.2.Name placeholder (formatInt t)).data = false
  exact containsSeq_stringsReplace kv₀.2.Name placeholder (formatInt t)
    (by decide) (formatInt_data_ne_nil t) (formatInt_disjoint_placeholder t)

/-- Claim C3 counterexample: a stack identifier containing the
placeholder is left untouched by `DeployStack`: the placeholder still
occurs afterwards instead of every occurrence being replaced by the
generated suffix. -/
theorem DeployStack_stackid_not_substituted :
    (DeployStack quietWorld cexWrapperC3 123 st0).2.1.stack.StackId =
      "demo-$\x7bopt:suffix\x7d" ∧
    containsSeq placeholder.data
      ((DeployStack quietWorld cexWrapperC3 123 st0).2.1.stack.StackId).data = true :=
  ⟨by decide, by decide⟩

/-- Claim C4 (amended): at every point in the orchestrator's lifetime,
the `StackId` accessor returns the stack identifier with the occurrences
of the hyphen-prefixed pattern `-placeholder` removed in one
left-to-right pass, and `DeployStack` never changes that result (it does
not rewrite the identifier). An occurrence of the placeholder without a
preceding hyphen is not removed — see the counterexample. -/
theorem StackId_strips_dash_placeholder (w : Wrapper) :
    Wrapper.StackId w = stringsReplace w.stack.StackId dashPlaceholder "" ∧
    ∀ (world : World) (t : Int) (st : ExecState),
      Wrapper.StackId (DeployStack world w t st).2.1 = Wrapper.StackId w := by
  refine ⟨rfl, ?_⟩
  intro world t st
  rw [DeployStack_wrapper]
  rfl

/-- Claim C4 counterexample: for a stack identifier containing the
placeholder without a preceding hyphen, the accessor returns it
unchanged — the placeholder is not removed. -/
theorem StackId_keeps_bare_placeholder :
    Wrapper.StackId cexWrapperC4 = "x$\x7bopt:suffix\x7d" ∧
    containsSeq placeholder.data (Wrapper.StackId cexWrapperC4).data = true :=
  ⟨by decide, by decide⟩

/-- Claim C7: during every `DeployStack` the build steps run in the
fixed order java8, java11, csharp, golang. The first step returning a
non-nil error determines the result: its error is returned and the final
instrumentation state is exactly the state that step left behind, so the
remaining build steps never run and no deploy invocation is ever
started. Only when all four steps return no error is the sls deploy
invocation issued, from the state after the last build step. -/
theorem DeployStack_sequencing (world : World) (w : Wrapper) (t : Int)
    (st : ExecState) :
    (∀ e, (deployB1 world w t st).1 = some e →
      DeployStack world w t st =
        (some e, deploySuffixed w t, (deployB1 world w t st).2)) ∧
    (∀ e, (deployB1 world w t st).1 = none → (deployB2 world w t st).1 = some e →
      DeployStack world w t st =
        (some e, deploySuffixed w t, (deployB2 world w t st).2)) ∧
    (∀ e, (deployB1 world w t st).1 = none → (deployB2 world w t st).1 = none →
      (deployB3 world w t st).1 = some e →
      DeployStack world w t st =
        (some e, deploySuffixed w t, (deployB3 world w t st).2)) ∧
    (∀ e, (deployB1 world w t st).1 = none → (deployB2 world w t st).1 = none →
      (deployB3 world w t st).1 = none → (deployB4 world w t st).1 = some e →
      DeployStack world w t st =
        (some e, deploySuffixed w t, (deployB4 world w t st).2)) ∧
    ((deployB1 world w t st).1 = none → (deployB2 world w t st).1 = none →
      (deployB3 world w t st).1 = none → (deployB4 world w t st).1 = none →
      DeployStack world w t st =
        ((execSlsCmd world (deploySuffixed w t) (deploySuffixed w t).yamlDirPath
            ["deploy", "--no-aws-s3-accelerate"] (deployB4 world w t st).2).1.2,
         deploySuffixed w t,
         (execSlsCmd world (deploySuffixed w t) (deploySuffixed w t).yamlDirPath
            ["deploy", "--no-aws-s3-accelerate"] (deployB4 world w t st).2).2)) := by
  refine ⟨?_, ?_, ?_, ?_, ?_⟩
  · intro e h1
    unfold deployB1 at h1 ⊢
    simp only [DeployStack]
    rcases hb1 : buildJava world (deploySuffixed w t) "java8" st with ⟨e1, st1⟩
    rw [hb1] at h1
    dsimp only at h1 ⊢
    subst h1
    rfl
  · intro e h1 h2
    unfold deployB1 at h1
    unfold deployB2 deployB1 at h2 ⊢
    simp only [DeployStack]
    rcases hb1 : buildJava world (deploySuffixed w t) "java8" st with ⟨e1, st1⟩
    rw [hb1] at h1 h2
    dsimp only at h1 h2 ⊢
    subst h1
    dsimp only
    rcases hb2 : buildJava world (deploySuffixed w t) "java11" st1 with ⟨e2, st2⟩
    rw [hb2] at h2
    dsimp only at h2
    subst h2
    rfl
  · intro e h1 h2 h3
    unfold deployB1 at h1
    unfold deployB2 deployB1 at h2
    unfold deployB3 deployB2 deployB1 at h3 ⊢
    simp only [DeployStack]
    rcases hb1 : buildJava world (deploySuffixed w t) "java8" st with ⟨e1, st1⟩
    rw [hb1] at h1 h2 h3
    dsimp only at h1 h2 h3 ⊢
    subst h1
    dsimp only
    rcases hb2 : buildJava world (deploySuffixed w t) "java11" st1 with ⟨e2, st2⟩
    rw [hb2] at h2 h3
    dsimp only at h2 h3
    subst h2
    dsimp only
    rcases hb3 : buildCsharp world (deploySuffixed w t) st2 with ⟨e3, st3⟩
    rw [hb3] at h3
    dsimp only at h3
    subst h3
    rfl
  · intro e h1 h2 h3 h4
    unfold deployB1 at h1
    unfold deployB2 deployB1 at h2
    unfold deployB3 deployB2 deployB1 at h3
    unfold deployB4 deployB3 deployB2 deployB1 at h4 ⊢
    simp only [DeployStack]
    rcases hb1 : buildJava world (deploySuffixed w t) "java8" st with ⟨e1, st1⟩
    rw [hb1] at h1 h2 h3 h4
    dsimp only at h1 h2 h3 h4 ⊢
    subst h1
    dsimp only
    rcases hb2 : buildJava world (deploySuffixed w t) "java11" st1 with ⟨e2, st2⟩
    rw [hb2] at h2 h3 h4
    dsimp only at h2 h3 h4
    subst h2
    dsimp only
    rcases hb3 : buildCsharp world (deploySuffixed w t) st2 with ⟨e3, st3⟩
    rw [hb3] at h3 h4
    dsimp only at h3 h4
    subst h3
    dsimp only
    rcases hb4 : buildGolang world (deploySuffixed w t) st3 with ⟨e4, st4⟩
    rw [hb4] at h4
    dsimp only at h4
    subst h4
    rfl
  · intro h1 h2 h3 h4
    unfold deployB1 at h1
    unfold deployB2 deployB1 at h2
    unfold deployB3 deployB2 deployB1 at h3
    unfold deployB4 deployB3 deployB2 deployB1 at h4 ⊢
    simp only [DeployStack]
    rcases hb1 : buildJava world (deploySuffixed w t) "java8" st with ⟨e1, st1⟩
    rw [hb1] at h1 h2 h3 h4
    dsimp only at h1 h2 h3 h4 ⊢
    subst h1
    dsimp only
    rcases hb2 : buildJava world (deploySuffixed w t) "java11" st1 with ⟨e2, st2⟩
    rw [hb2] at h2 h3 h4
    dsimp only at h2 h3 h4
    subst h2
    dsimp only
    rcases hb3 : buildCsharp world (deploySuffixed w t) st2 with ⟨e3, st3⟩
    rw [hb3] at h3 h4
    dsimp only at h3 h4
    subst h3
    dsimp only
    rcases hb4 : buildGolang world (deploySuffixed w t) st3 with ⟨e4, st4⟩
    rw [hb4] at h4
    dsimp only at h4
    subst h4
    rfl

/-- Claim C7 witness: with the java8 build failing with a non-advisory
error, `DeployStack` returns that error and the final state is the one
the java8 step produced — no later build and no deploy invocation. -/
theorem DeployStack_sequencing_witness :
    (deployB1 java8FailWorld wrapper0 5 st0).1 = some "mvnboom" ∧
    DeployStack java8FailWorld wrapper0 5 st0 =
      (some "mvnboom", deploySuffixed wrapper0 5,
       (deployB1 java8FailWorld wrapper0 5 st0).2) :=
  ⟨by decide,
    (DeployStack_sequencing java8FailWorld wrapper0 5 st0).1 "mvnboom" (by decide)⟩

end Sls
